import Mathlib

/-!
Verification of the TC2ADSProtocol client library (Python) against its
natural-language specification.  Each definition below is a shallow
embedding of a function or data table of the source; theorems settle the
frozen claims C1 to C10.

Sources embedded:
  * ads/adssymbol.py      (AdsType registry, AdsTypeInfo.from_data array
                           scan, AdsAlignment, AdsGroupSymbolList)
  * ads/adstypeconvert.py (primitive codecs, AdsStringDatatype,
                           AdsTimeDatatype, AdsDateDatatype)
  * ads/adsclient.py      (invoke-id counter, sum_read,
                           read_ams_packet_from_socket,
                           await_command_invoke)
-/

namespace TC2ADS

/-! ## AdsType registry (ads/adssymbol.py, class AdsType) -/

/-- Wire format of a primitive codec, mirroring the struct format
character of the AdsTypeConvert object stored in the registry tuple
(`?`, `b`, `B`, `h`, `H`, `i`, `I`, `f`, `d`); `stringClass` stands for
the bare class object `AdsTypeConvert.STRING`. -/
inductive AdsFmt where
  | qmark | i8 | u8 | i16 | u16 | i32 | u32 | f32 | f64 | stringClass
deriving DecidableEq, Repr

/-- One registry tuple `(name, size, signed, is_struct, formatter)` from
`AdsType.types` in ads/adssymbol.py. -/
structure AdsTypeDescr where
  name : String
  size : Nat
  signed : Bool
  isStruct : Bool
  fmt : AdsFmt
deriving DecidableEq, Repr

/-- The closed type registry `AdsType.types` of ads/adssymbol.py,
keyed by the numeric wire tag.  Tags outside the table raise KeyError in
Python, modelled by `none`. -/
def AdsType.types : Nat → Option AdsTypeDescr
  | 0x21 => some ⟨"BOOL", 1, false, false, .qmark⟩
  | 0x41 => some ⟨"STRUCT", 0, false, true, .i8⟩
  | 0x13 => some ⟨"UDINT", 4, false, false, .u32⟩
  | 0x12 => some ⟨"UINT", 2, false, false, .u16⟩
  | 0x11 => some ⟨"USINT", 1, false, false, .u8⟩
  | 0x10 => some ⟨"SINT", 1, true, false, .i8⟩
  | 0x02 => some ⟨"INT", 2, true, false, .i16⟩
  | 0x03 => some ⟨"DINT", 4, true, false, .i32⟩
  | 0x04 => some ⟨"REAL", 4, true, false, .f32⟩
  | 0x05 => some ⟨"LREAL", 8, true, false, .f64⟩
  | 0x1E => some ⟨"STRING", 0, false, false, .stringClass⟩
  | _ => none

/-- `AdsType.size(adstype)` of ads/adssymbol.py: second component of the
registry tuple. -/
def AdsType.sizeOf (t : Nat) : Option Nat :=
  (AdsType.types t).map (fun d => d.size)

/-! ## Alignment (ads/adssymbol.py, class AdsAlignment) -/

/-- One entry of the `_omask` table of `AdsAlignment`. -/
structure OmaskEntry where
  mask : Nat
  off : Nat
deriving DecidableEq, Repr

/-- The `_omask` constant table of `AdsAlignment` (TC2 on ARM).  Sizes
outside the table raise KeyError in Python, modelled by `none`. -/
def AdsAlignment.omask : Nat → Option OmaskEntry
  | 0 => some ⟨0b11, 4⟩
  | 1 => some ⟨0b00, 1⟩
  | 2 => some ⟨0b01, 2⟩
  | 4 => some ⟨0b11, 4⟩
  | 8 => some ⟨0b11, 4⟩
  | _ => none

/-- `AdsAlignment.calc_alignment(offset, size)` of ads/adssymbol.py.
The source computes `(offset & ~mask) + off` when `offset & mask > 0`;
every mask in the table is of the form `2^k - 1`, for which
`offset & ~mask = offset - (offset & mask)` on nonnegative integers. -/
def AdsAlignment.calc_alignment (offset size : Nat) : Option Nat :=
  (AdsAlignment.omask size).map (fun m =>
    if 0 < offset &&& m.mask then (offset - (offset &&& m.mask)) + m.off else offset)

/-- Alignment granularity named by the spec: `align_of(1) = 1,
align_of(2) = 2, align_of(4) = align_of(8) = 4`. -/
def align_of : Nat → Nat
  | 1 => 1
  | 2 => 2
  | _ => 4

theorem and_three_eq_mod (o : Nat) : o &&& 3 = o % 4 := by
  have h := Nat.and_pow_two_sub_one_eq_mod o 2
  norm_num at h
  exact h

theorem calc_alignment_one (o : Nat) : AdsAlignment.calc_alignment o 1 = some o := by
  simp [AdsAlignment.calc_alignment, AdsAlignment.omask]

theorem calc_alignment_two (o : Nat) :
    AdsAlignment.calc_alignment o 2 =
      some (if 0 < o % 2 then (o - o % 2) + 2 else o) := by
  simp [AdsAlignment.calc_alignment, AdsAlignment.omask, Nat.and_one_is_mod]

theorem calc_alignment_four (o : Nat) :
    AdsAlignment.calc_alignment o 4 =
      some (if 0 < o % 4 then (o - o % 4) + 4 else o) := by
  simp [AdsAlignment.calc_alignment, AdsAlignment.omask, and_three_eq_mod]

theorem calc_alignment_eight (o : Nat) :
    AdsAlignment.calc_alignment o 8 =
      some (if 0 < o % 4 then (o - o % 4) + 4 else o) := by
  simp [AdsAlignment.calc_alignment, AdsAlignment.omask, and_three_eq_mod]

theorem calc_alignment_zero_eq (o : Nat) :
    AdsAlignment.calc_alignment o 0 =
      some (if 0 < o % 4 then (o - o % 4) + 4 else o) := by
  simp [AdsAlignment.calc_alignment, AdsAlignment.omask, and_three_eq_mod]

/-- C5: for every offset `o` and primitive size `n` in 1, 2, 4, 8,
`AdsAlignment.calc_alignment o n` succeeds and returns the smallest
offset greater than or equal to `o` that is a multiple of `align_of n`,
where `align_of 1 = 1`, `align_of 2 = 2`, `align_of 4 = align_of 8 = 4`;
hence every offset produced through this rule is divisible by
`align_of n` with minimal padding. -/
theorem c5_calc_alignment_least (o n : Nat)
    (h : n = 1 ∨ n = 2 ∨ n = 4 ∨ n = 8) :
    ∃ a, AdsAlignment.calc_alignment o n = some a ∧
      o ≤ a ∧ align_of n ∣ a ∧ ∀ b, o ≤ b → align_of n ∣ b → a ≤ b := by
  rcases h with h | h | h | h <;> subst h
  · exact ⟨o, calc_alignment_one o, le_refl o, one_dvd o, fun b hb _ => hb⟩
  · refine ⟨if 0 < o % 2 then (o - o % 2) + 2 else o, calc_alignment_two o, ?_, ?_, ?_⟩
    · split <;> omega
    · show (2 : Nat) ∣ _
      split <;> omega
    · intro b hb hdvd
      have h2 : (2 : Nat) ∣ b := hdvd
      split <;> omega
  · refine ⟨if 0 < o % 4 then (o - o % 4) + 4 else o, calc_alignment_four o, ?_, ?_, ?_⟩
    · split <;> omega
    · show (4 : Nat) ∣ _
      split <;> omega
    · intro b hb hdvd
      have h4 : (4 : Nat) ∣ b := hdvd
      split <;> omega
  · refine ⟨if 0 < o % 4 then (o - o % 4) + 4 else o, calc_alignment_eight o, ?_, ?_, ?_⟩
    · split <;> omega
    · show (4 : Nat) ∣ _
      split <;> omega
    · intro b hb hdvd
      have h4 : (4 : Nat) ∣ b := hdvd
      split <;> omega

/-- Witness for C5 at `o = 5`, `n = 4`: the aligned offset is 8. -/
theorem c5_calc_alignment_least_witness :
    ∃ a, AdsAlignment.calc_alignment 5 4 = some a ∧
      5 ≤ a ∧ align_of 4 ∣ a ∧ ∀ b, 5 ≤ b → align_of 4 ∣ b → a ≤ b :=
  c5_calc_alignment_least 5 4 (by decide)

/-- C10: `calc_alignment` also accepts size 0 (the registry byte size of
STRUCT and STRING): for every offset `o` it returns the same result as
size 4, namely the least multiple of 4 that is at least `o`; and the
registry byte sizes of STRUCT (0x41) and STRING (0x1E) are both 0. -/
theorem c10_calc_alignment_size_zero (o : Nat) :
    AdsAlignment.calc_alignment o 0 = AdsAlignment.calc_alignment o 4 ∧
    (∃ a, AdsAlignment.calc_alignment o 0 = some a ∧
      o ≤ a ∧ 4 ∣ a ∧ ∀ b, o ≤ b → 4 ∣ b → a ≤ b) ∧
    AdsType.sizeOf 0x41 = some 0 ∧ AdsType.sizeOf 0x1E = some 0 := by
  refine ⟨?_, ?_, by decide, by decide⟩
  · rw [calc_alignment_zero_eq, calc_alignment_four]
  · refine ⟨if 0 < o % 4 then (o - o % 4) + 4 else o, calc_alignment_zero_eq o, ?_, ?_, ?_⟩
    · split <;> omega
    · split <;> omega
    · intro b hb hdvd
      split <;> omega

/-- Witness for C10 at `o = 5`: size 0 aligns 5 up to 8, exactly as size
4 does, and the minimality clause applies at `b = 8`. -/
theorem c10_calc_alignment_size_zero_witness :
    AdsAlignment.calc_alignment 5 0 = AdsAlignment.calc_alignment 5 4 ∧
    AdsType.sizeOf 0x41 = some 0 :=
  ⟨(c10_calc_alignment_size_zero 5).1, (c10_calc_alignment_size_zero 5).2.2.1⟩

/-! ## Invoke-id counter (ads/adsclient.py) -/

/-- The counter step of `AdsClient.prepare_command_invoke`: increment
`_current_invoke_id` when below 0xFFFF, otherwise wrap to 0x8000.  The
constructor initialises the counter to 0x8000. -/
def prepare_command_invoke (c : Nat) : Nat :=
  if c < 0xFFFF then c + 1 else 0x8000

/-- Invoke id assigned to the k-th request after construction (the
counter starts at 0x8000 and each call steps it once). -/
def invoke_id_after (k : Nat) : Nat :=
  prepare_command_invoke^[k] 0x8000

theorem invoke_id_after_formula (k : Nat) :
    invoke_id_after k = 0x8000 + k % 0x8000 := by
  induction k with
  | zero => simp [invoke_id_after]
  | succ n ih =>
    unfold invoke_id_after at ih ⊢
    rw [Function.iterate_succ_apply', ih]
    unfold prepare_command_invoke
    by_cases h : n % 0x8000 < 0x7FFF
    · rw [if_pos (by omega)]
      omega
    · rw [if_neg (by omega)]
      omega

/-- C4: starting from the initial counter value 0x8000, the k-th call of
`prepare_command_invoke` yields id `0x8000 + (k mod 0x8000)` — that is,
0x8001, 0x8002, ..., 0xFFFF, then 0x8000 again; every assigned id lies
in [0x8000, 0xFFFF] and is never 0. -/
theorem c4_invoke_id_cycle (k : Nat) :
    invoke_id_after k = 0x8000 + k % 0x8000 ∧
    0x8000 ≤ invoke_id_after k ∧ invoke_id_after k ≤ 0xFFFF ∧
    invoke_id_after k ≠ 0 := by
  have h := invoke_id_after_formula k
  refine ⟨h, ?_, ?_, ?_⟩ <;> omega


/-- Witness for C4 at the wrap point: after 0x8000 calls the counter is
back at 0x8000, inside the window and nonzero. -/
theorem c4_invoke_id_cycle_witness :
    invoke_id_after 0x8000 = 0x8000 + 0x8000 % 0x8000 ∧
    0x8000 ≤ invoke_id_after 0x8000 ∧ invoke_id_after 0x8000 ≤ 0xFFFF ∧
    invoke_id_after 0x8000 ≠ 0 :=
  c4_invoke_id_cycle 0x8000

/-! ## Little-endian helpers and primitive unpack
    (ads/adstypeconvert.py module-level codec objects) -/

/-- Little-endian value of a byte list (least significant byte first),
as computed by struct.unpack of an unsigned format. -/
def leVal : List Nat → Nat
  | [] => 0
  | b :: bs => b + 256 * leVal bs

/-- Little-endian encoding of `n` on `w` bytes, as produced by
struct.pack of an unsigned format (values are in range in the source). -/
def leBytes (w n : Nat) : List Nat :=
  match w with
  | 0 => []
  | w + 1 => n % 256 :: leBytes w (n / 256)

/-- Twos-complement reading of an unsigned `bits`-bit value, as done by
struct.unpack of a signed format. -/
def twosComplement (bits v : Nat) : Int :=
  if v < 2 ^ (bits - 1) then (v : Int) else (v : Int) - 2 ^ bits

/-- Decoded value of a primitive codec.  Floating-point payloads (`f`
and `d` formats) are kept as their raw little-endian bytes: the claims
under verification only track which bytes reach which codec. -/
inductive AdsValue where
  | b (val : Bool)
  | u (val : Nat)
  | i (val : Int)
  | raw (bytes : List Nat)
deriving DecidableEq, Repr

/-- Unpack of the codec object stored in the registry for a format
character, applied to `bs` (ads/adstypeconvert.py: the
AdsSingleValuedTypeConvert instances BOOL, USINT, UINT, UDINT, SINT,
INT, DINT, REAL, LREAL and the BYTE formatter used for STRUCT).  The
bool format returns false exactly on a zero byte. -/
def fmtUnpack : AdsFmt → List Nat → AdsValue
  | .qmark, bs => .b (leVal bs ≠ 0)
  | .u8, bs => .u (leVal bs)
  | .u16, bs => .u (leVal bs)
  | .u32, bs => .u (leVal bs)
  | .i8, bs => .i (twosComplement 8 (leVal bs))
  | .i16, bs => .i (twosComplement 16 (leVal bs))
  | .i32, bs => .i (twosComplement 32 (leVal bs))
  | .f32, bs => .raw bs
  | .f64, bs => .raw bs
  | .stringClass, bs => .raw bs

/-- `AdsType.formatter(adstype).unpack(bs)` of the source, for a
registered tag. -/
def adsFormatterUnpack (tag : Nat) (bs : List Nat) : Option AdsValue :=
  (AdsType.types tag).map (fun d => fmtUnpack d.fmt bs)

/-! ## AdsGroupSymbolList (ads/adssymbol.py) and sum_read
    (ads/adsclient.py) -/

/-- One AdsSymbol as used by `sum_read`: resolved leaf with wire address
`(index, offset)`, registry tag `type` and the optional decoded
`value` (None before the first read). -/
structure GSymbol where
  path : String
  index : Nat
  offset : Nat
  type : Nat
  value : Option AdsValue
deriving DecidableEq, Repr

/-- Replace the entry with key `p` in an association-ordered list,
keeping its position (Python dict update semantics). -/
def dictSet (db : List GSymbol) (s : GSymbol) : List GSymbol :=
  match db with
  | [] => [s]
  | e :: es => if e.path = s.path then s :: es else e :: dictSet es s

/-- `AdsGroupSymbolList` of ads/adssymbol.py: an insertion-ordered dict
from path to symbol plus a separate `size` counter. -/
structure AdsGroupSymbolList where
  db : List GSymbol
  size : Nat
deriving DecidableEq, Repr

/-- The empty group, as built by `AdsGroupSymbolList.__init__`. -/
def AdsGroupSymbolList.empty : AdsGroupSymbolList := ⟨[], 0⟩

/-- `AdsGroupSymbolList.insert`: store under `symbol.path` (overwriting
any entry with the same path) and increment `size` unconditionally. -/
def AdsGroupSymbolList.insert (g : AdsGroupSymbolList) (s : GSymbol) :
    AdsGroupSymbolList :=
  ⟨dictSet g.db s, g.size + 1⟩

/-- `AdsGroupSymbolList.extend_list`: merge every entry of the other
group, incrementing `size` once per entry of the other list. -/
def AdsGroupSymbolList.extend_list (g other : AdsGroupSymbolList) :
    AdsGroupSymbolList :=
  other.db.foldl (fun acc e => ⟨dictSet acc.db e, acc.size + 1⟩) g

/-- An operation on a group list, for stating the C9 invariant over any
sequence of `insert` and `extend_list` calls. -/
inductive GroupOp where
  | ins (s : GSymbol)
  | ext (other : AdsGroupSymbolList)

/-- Apply a sequence of group operations starting from a group. -/
def applyGroupOps (g : AdsGroupSymbolList) : List GroupOp → AdsGroupSymbolList
  | [] => g
  | .ins s :: ops => applyGroupOps (g.insert s) ops
  | .ext o :: ops => applyGroupOps (g.extend_list o) ops

/-- Number of individual insertions a sequence of operations performs:
one per `insert` call, one per entry for `extend_list`. -/
def groupOpCount : List GroupOp → Nat
  | [] => 0
  | .ins _ :: ops => 1 + groupOpCount ops
  | .ext o :: ops => o.db.length + groupOpCount ops

/-- The 12-byte request record `{index:u32, offset:u32, size:u32}` that
`sum_read` packs with struct.pack_into of format <III for one symbol. -/
def sumReadRecord (e : GSymbol) : Option (List Nat) :=
  (AdsType.sizeOf e.type).map (fun sz =>
    leBytes 4 (e.index % 2 ^ 32) ++ leBytes 4 (e.offset % 2 ^ 32) ++ leBytes 4 sz)

/-- The response-walk of `sum_read`: starting at byte `ptr` of the
response data, assign each symbol of positive registry size the unpack
of its slice and advance the cursor; symbols of zero registry size are
left untouched (the source guards with `if ssize > 0`).  A slice
shorter than the registry size makes struct.unpack raise, modelled by
`none`. -/
def sumUnpackWalk (resp : List Nat) : List GSymbol → Nat → Option (List GSymbol)
  | [], _ => some []
  | e :: es, ptr =>
    match AdsType.sizeOf e.type with
    | none => none
    | some ssize =>
      if 0 < ssize then
        match adsFormatterUnpack e.type ((resp.drop ptr).take ssize) with
        | none => none
        | some v =>
          if ((resp.drop ptr).take ssize).length = ssize then
            (sumUnpackWalk resp es (ptr + ssize)).map
              (fun rest => { e with value := some v } :: rest)
          else none
      else
        (sumUnpackWalk resp es (ptr + ssize)).map (fun rest => e :: rest)

/-- Observable effect of `AdsClient.sum_read` (ads/adsclient.py): the
write buffer handed to ReadWrite, the `indexOffset` and `readLen`
arguments, and the group entries after the response walk.  The walk
starts after `group.size * 4` status bytes. -/
structure SumReadEffect where
  writeBuf : List Nat
  indexOffset : Nat
  readLen : Nat
  symbols : List GSymbol
deriving DecidableEq, Repr

/-- Sum of the registry sizes accumulated by the `size` variable of
`sum_read` over the group, when every tag is registered. -/
def sumReadTotalSize (g : AdsGroupSymbolList) : Nat :=
  (g.db.map (fun e => (AdsType.sizeOf e.type).getD 0)).sum

/-- Concatenated request records for the group entries in dict order,
as packed by the `struct.pack_into` loop of `sum_read`. -/
def sumReadRecords : List GSymbol → Option (List Nat)
  | [] => some []
  | e :: es =>
    match sumReadRecord e, sumReadRecords es with
    | some r, some rs => some (r ++ rs)
    | _, _ => none

/-- `AdsClient.sum_read` on a group and a response payload.  The source
allocates a zero bytearray of `12 * group.size` bytes and packs one
12-byte record per dict entry from the front, so any surplus (when
`size` exceeds the number of distinct entries) stays zero; were the
dict longer than `size`, `struct.pack_into` would raise, modelled by
the length guard. -/
def sum_read (g : AdsGroupSymbolList) (resp : List Nat) : Option SumReadEffect :=
  if g.db.length ≤ g.size then
    match sumReadRecords g.db with
    | none => none
    | some recs =>
      match sumUnpackWalk resp g.db (g.size * 4) with
      | none => none
      | some syms =>
        some ⟨recs ++ List.replicate (12 * g.size - 12 * g.db.length) 0,
              g.size,
              sumReadTotalSize g + g.size * 4,
              syms⟩
  else none

/-- Sum of the registry sizes of the first `j` group entries (the read
cursor advance before entry `j` in the response walk). -/
def prefixSizes : List GSymbol → Nat → Nat
  | _, 0 => 0
  | [], _ + 1 => 0
  | e :: es, j + 1 => (AdsType.sizeOf e.type).getD 0 + prefixSizes es j

theorem leBytes_length (w : Nat) : ∀ n, (leBytes w n).length = w := by
  induction w with
  | zero => intro n; rfl
  | succ w ih => intro n; simp [leBytes, ih]

theorem sumReadRecord_length (e : GSymbol) (r : List Nat)
    (h : sumReadRecord e = some r) : r.length = 12 := by
  unfold sumReadRecord at h
  cases hs : AdsType.sizeOf e.type with
  | none => rw [hs] at h; simp at h
  | some sz =>
    rw [hs] at h
    simp only [Option.map_some', Option.some_inj] at h
    subst h
    simp [leBytes_length]

theorem sumReadRecord_eq (e : GSymbol) (r : List Nat)
    (h : sumReadRecord e = some r) :
    r = leBytes 4 (e.index % 2 ^ 32) ++ leBytes 4 (e.offset % 2 ^ 32) ++
        leBytes 4 ((AdsType.sizeOf e.type).getD 0) := by
  unfold sumReadRecord at h
  cases hs : AdsType.sizeOf e.type with
  | none => rw [hs] at h; simp at h
  | some sz =>
    rw [hs] at h
    simp only [Option.map_some', Option.some_inj] at h
    subst h
    simp [hs]

theorem drop_append_block (r rs : List Nat) (hr12 : r.length = 12) (j : Nat) :
    (r ++ rs).drop (12 * (j + 1)) = rs.drop (12 * j) := by
  have h : 12 * (j + 1) = r.length + 12 * j := by omega
  rw [h, ← List.drop_drop, List.drop_left]

theorem sumReadRecords_spec :
    ∀ (db : List GSymbol) (buf : List Nat), sumReadRecords db = some buf →
      buf.length = 12 * db.length ∧
      ∀ j e, db[j]? = some e → sumReadRecord e = some ((buf.drop (12 * j)).take 12) := by
  intro db
  induction db with
  | nil =>
    intro buf h
    unfold sumReadRecords at h
    rw [Option.some_inj] at h
    subst h
    exact ⟨rfl, by intro j e hj; simp at hj⟩
  | cons e es ih =>
    intro buf h
    unfold sumReadRecords at h
    cases hr : sumReadRecord e <;> cases hrs : sumReadRecords es <;>
      rw [hr, hrs] at h <;> simp only [] at h
    · exact absurd h (by simp)
    · exact absurd h (by simp)
    · exact absurd h (by simp)
    case cons.some.some r rs =>
      rw [Option.some_inj] at h
      subst h
      obtain ⟨hlen, hcontent⟩ := ih rs hrs
      have hr12 : r.length = 12 := sumReadRecord_length e r hr
      constructor
      · simp [hlen, hr12]; ring
      · intro j e2 hj
        cases j with
        | zero =>
          rw [List.getElem?_cons_zero, Option.some_inj] at hj
          subst hj
          rw [hr]
          congr 1
          rw [Nat.mul_zero, List.drop_zero, List.take_append_of_le_length (by omega),
             List.take_of_length_le (by omega)]
        | succ j =>
          rw [List.getElem?_cons_succ] at hj
          rw [drop_append_block r rs hr12 j]
          exact hcontent j e2 hj

theorem sumUnpackWalk_spec (resp : List Nat) :
    ∀ (db : List GSymbol) (ptr : Nat) (out : List GSymbol),
      sumUnpackWalk resp db ptr = some out →
      out.length = db.length ∧
      ∀ j e, db[j]? = some e →
        if 0 < (AdsType.sizeOf e.type).getD 0 then
          ∃ v, adsFormatterUnpack e.type
              ((resp.drop (ptr + prefixSizes db j)).take ((AdsType.sizeOf e.type).getD 0)) = some v ∧
            out[j]? = some { e with value := some v }
        else out[j]? = some e := by
  intro db
  induction db with
  | nil =>
    intro ptr out h
    unfold sumUnpackWalk at h
    rw [Option.some_inj] at h
    subst h
    exact ⟨rfl, by intro j e hj; simp at hj⟩
  | cons e es ih =>
    intro ptr out h
    unfold sumUnpackWalk at h
    cases hsz : AdsType.sizeOf e.type with
    | none => rw [hsz] at h; simp only [] at h; exact absurd h (by simp)
    | some ssize =>
      rw [hsz] at h
      simp only [] at h
      by_cases hpos : 0 < ssize
      · rw [if_pos hpos] at h
        cases hu : adsFormatterUnpack e.type ((resp.drop ptr).take ssize) with
        | none => rw [hu] at h; simp only [] at h; exact absurd h (by simp)
        | some v =>
          rw [hu] at h
          simp only [] at h
          by_cases hl : ((resp.drop ptr).take ssize).length = ssize
          · rw [if_pos hl] at h
            cases hw : sumUnpackWalk resp es (ptr + ssize) with
            | none => rw [hw] at h; exact absurd h (by simp)
            | some rest =>
              rw [hw] at h
              simp only [Option.map_some', Option.some_inj] at h
              subst h
              obtain ⟨hlen, hcontent⟩ := ih (ptr + ssize) rest hw
              refine ⟨by simp [hlen], ?_⟩
              intro j e2 hj
              cases j with
              | zero =>
                rw [List.getElem?_cons_zero, Option.some_inj] at hj
                subst hj
                rw [if_pos (by rw [hsz]; simpa using hpos)]
                refine ⟨v, ?_, List.getElem?_cons_zero⟩
                have hps : prefixSizes (e :: es) 0 = 0 := rfl
                rw [hps, Nat.add_zero, hsz]
                simpa using hu
              | succ j =>
                rw [List.getElem?_cons_succ] at hj
                have hc := hcontent j e2 hj
                have hps : prefixSizes (e :: es) (j + 1) =
                    ssize + prefixSizes es j := by simp [prefixSizes, hsz]
                rw [hps, ← Nat.add_assoc]
                rw [List.getElem?_cons_succ]
                exact hc
          · rw [if_neg hl] at h; exact absurd h (by simp)
      · rw [if_neg hpos] at h
        cases hw : sumUnpackWalk resp es (ptr + ssize) with
        | none => rw [hw] at h; exact absurd h (by simp)
        | some rest =>
          rw [hw] at h
          simp only [Option.map_some', Option.some_inj] at h
          subst h
          obtain ⟨hlen, hcontent⟩ := ih (ptr + ssize) rest hw
          refine ⟨by simp [hlen], ?_⟩
          intro j e2 hj
          cases j with
          | zero =>
            rw [List.getElem?_cons_zero, Option.some_inj] at hj
            subst hj
            rw [if_neg (by rw [hsz]; simpa using hpos)]
            exact List.getElem?_cons_zero
          | succ j =>
            rw [List.getElem?_cons_succ] at hj
            have hc := hcontent j e2 hj
            have hps : prefixSizes (e :: es) (j + 1) =
                ssize + prefixSizes es j := by simp [prefixSizes, hsz]
            rw [hps, ← Nat.add_assoc]
            rw [List.getElem?_cons_succ]
            exact hc

theorem sum_read_inversion (g : AdsGroupSymbolList) (resp : List Nat)
    (r : SumReadEffect) (h : sum_read g resp = some r) :
    g.db.length ≤ g.size ∧
    ∃ recs syms, sumReadRecords g.db = some recs ∧
      sumUnpackWalk resp g.db (g.size * 4) = some syms ∧
      r = ⟨recs ++ List.replicate (12 * g.size - 12 * g.db.length) 0,
           g.size, sumReadTotalSize g + g.size * 4, syms⟩ := by
  unfold sum_read at h
  by_cases hg : g.db.length ≤ g.size
  · rw [if_pos hg] at h
    cases hr : sumReadRecords g.db with
    | none => rw [hr] at h; simp only [] at h; exact absurd h (by simp)
    | some recs =>
      rw [hr] at h
      simp only [] at h
      cases hw : sumUnpackWalk resp g.db (g.size * 4) with
      | none => rw [hw] at h; simp only [] at h; exact absurd h (by simp)
      | some syms =>
        rw [hw] at h
        simp only [Option.some_inj] at h
        exact ⟨hg, recs, syms, rfl, rfl, h.symm⟩
  · rw [if_neg hg] at h; exact absurd h (by simp)

theorem sum_read_components (g : AdsGroupSymbolList) (resp : List Nat)
    (r : SumReadEffect) (h : sum_read g resp = some r) :
    r.indexOffset = g.size ∧ r.writeBuf.length = 12 * g.size ∧
    r.readLen = sumReadTotalSize g + g.size * 4 := by
  obtain ⟨hg, recs, syms, hr, hw, heq⟩ := sum_read_inversion g resp r h
  obtain ⟨hlen, _⟩ := sumReadRecords_spec g.db recs hr
  subst heq
  refine ⟨rfl, ?_, rfl⟩
  simp [hlen]
  omega

theorem extend_foldl_size (l : List GSymbol) :
    ∀ g : AdsGroupSymbolList,
      (l.foldl (fun acc e => (⟨dictSet acc.db e, acc.size + 1⟩ : AdsGroupSymbolList)) g).size =
        g.size + l.length := by
  induction l with
  | nil => intro g; simp
  | cons e es ih =>
    intro g
    rw [List.foldl_cons, ih]
    simp
    omega

theorem applyGroupOps_size (ops : List GroupOp) :
    ∀ g : AdsGroupSymbolList,
      (applyGroupOps g ops).size = g.size + groupOpCount ops := by
  induction ops with
  | nil => intro g; simp [applyGroupOps, groupOpCount]
  | cons op ops ih =>
    intro g
    cases op with
    | ins s =>
      rw [show applyGroupOps g (.ins s :: ops) = applyGroupOps (g.insert s) ops from rfl, ih]
      simp [AdsGroupSymbolList.insert, groupOpCount]
      omega
    | ext o =>
      rw [show applyGroupOps g (.ext o :: ops) = applyGroupOps (g.extend_list o) ops from rfl, ih]
      unfold AdsGroupSymbolList.extend_list
      rw [extend_foldl_size]
      simp [groupOpCount]
      omega

/-- Demonstration symbol used for the duplicate-insert part of C9. -/
def dupDemoSym : GSymbol := ⟨".X", 0, 0, 0x13, none⟩

/-- C9: the `size` counter of `AdsGroupSymbolList` counts insertions,
not distinct paths: after any sequence of `insert` and `extend_list`
calls starting from the empty group, `size` equals the total number of
insertions performed; inserting the same path twice yields `size = 2`
while the mapping holds a single entry; and `sum_read` derives its
request buffer length, its `index_offset` and its `read_length` from
this counter. -/
theorem c9_group_size_counts_insertions :
    (∀ ops : List GroupOp,
      (applyGroupOps AdsGroupSymbolList.empty ops).size = groupOpCount ops) ∧
    ((AdsGroupSymbolList.empty.insert dupDemoSym).insert dupDemoSym).size = 2 ∧
    ((AdsGroupSymbolList.empty.insert dupDemoSym).insert dupDemoSym).db.length = 1 ∧
    (∀ (g : AdsGroupSymbolList) (resp : List Nat) (r : SumReadEffect),
      sum_read g resp = some r →
        r.writeBuf.length = 12 * g.size ∧ r.indexOffset = g.size ∧
        r.readLen = sumReadTotalSize g + g.size * 4) := by
  refine ⟨?_, by decide, by decide, ?_⟩
  · intro ops
    rw [applyGroupOps_size]
    simp [AdsGroupSymbolList.empty]
  · intro g resp r h
    obtain ⟨h1, h2, h3⟩ := sum_read_components g resp r h
    exact ⟨h2, h1, h3⟩

/-- Witness for C9: a two-insert sequence of the same symbol gives size
2, and a concrete `sum_read` on a one-UDINT group uses `size = 1` for
all three derived quantities. -/
theorem c9_group_size_counts_insertions_witness :
    (applyGroupOps AdsGroupSymbolList.empty
        [.ins dupDemoSym, .ins dupDemoSym]).size = groupOpCount [.ins dupDemoSym, .ins dupDemoSym] ∧
    ∃ r, sum_read (AdsGroupSymbolList.empty.insert dupDemoSym) [0, 0, 0, 0, 1, 2, 3, 4] = some r ∧
      r.writeBuf.length = 12 * 1 := by
  refine ⟨c9_group_size_counts_insertions.1 [.ins dupDemoSym, .ins dupDemoSym], ?_⟩
  refine ⟨⟨leBytes 4 0 ++ leBytes 4 0 ++ leBytes 4 4, 1, 8,
    [{ dupDemoSym with value := some (.u 0x04030201) }]⟩, by decide, ?_⟩
  exact (c9_group_size_counts_insertions.2.2.2
    (AdsGroupSymbolList.empty.insert dupDemoSym) [0, 0, 0, 0, 1, 2, 3, 4]
    ⟨leBytes 4 0 ++ leBytes 4 0 ++ leBytes 4 4, 1, 8,
      [{ dupDemoSym with value := some (.u 0x04030201) }]⟩ (by decide)).1

/-- C6 counterexample input: a group holding one symbol whose tag 0x1E
(STRING) has registry byte size 0. -/
def stringDemoSym : GSymbol := ⟨".S", 0x4040, 2, 0x1E, none⟩

/-- C6 as frozen is false at a zero-size symbol: `sum_read` on a group
holding one STRING-tagged symbol succeeds, yet leaves the symbol value
unassigned (`none`), while the claim requires each symbol to receive
the unpack of its `byte_size(type)` bytes. -/
theorem c6_sum_read_counterexample :
    sum_read (AdsGroupSymbolList.empty.insert stringDemoSym) [0, 0, 0, 0] =
      some ⟨[0x40, 0x40, 0, 0, 2, 0, 0, 0, 0, 0, 0, 0], 1, 4, [stringDemoSym]⟩ ∧
    stringDemoSym.value = none := by
  exact ⟨by decide, rfl⟩

/-- C6 (amended): `sum_read` builds a write buffer of `group.size`
12-byte records, the first `group.db.length` of which are
`{index:u32, offset:u32, size:u32}` in group order (the rest zero
padding when `size` exceeds the number of distinct entries), issues the
ReadWrite with `index_offset = group.size` and
`read_length = total_size + group.size * 4`, and then, after skipping
`group.size * 4` status bytes, walks the group in the same order,
assigning each symbol of positive registry byte size the unpack of its
`byte_size(type)`-byte slice through its primitive codec; symbols whose
registry byte size is 0 are skipped and keep their previous value. -/
theorem c6_sum_read_amended (g : AdsGroupSymbolList) (resp : List Nat)
    (r : SumReadEffect) (h : sum_read g resp = some r) :
    r.indexOffset = g.size ∧
    r.readLen = sumReadTotalSize g + g.size * 4 ∧
    r.writeBuf.length = 12 * g.size ∧
    (∀ j e, g.db[j]? = some e →
      (r.writeBuf.drop (12 * j)).take 12 =
        leBytes 4 (e.index % 2 ^ 32) ++ leBytes 4 (e.offset % 2 ^ 32) ++
        leBytes 4 ((AdsType.sizeOf e.type).getD 0)) ∧
    r.symbols.length = g.db.length ∧
    (∀ j e, g.db[j]? = some e →
      if 0 < (AdsType.sizeOf e.type).getD 0 then
        ∃ v, adsFormatterUnpack e.type
            ((resp.drop (g.size * 4 + prefixSizes g.db j)).take
              ((AdsType.sizeOf e.type).getD 0)) = some v ∧
          r.symbols[j]? = some { e with value := some v }
      else r.symbols[j]? = some e) := by
  obtain ⟨hg, recs, syms, hr, hw, heq⟩ := sum_read_inversion g resp r h
  obtain ⟨hrlen, hrcontent⟩ := sumReadRecords_spec g.db recs hr
  obtain ⟨hwlen, hwcontent⟩ := sumUnpackWalk_spec resp g.db (g.size * 4) syms hw
  subst heq
  refine ⟨rfl, rfl, ?_, ?_, hwlen, hwcontent⟩
  · simp [hrlen]
    omega
  · intro j e hj
    have hjlt : j < g.db.length := by
      rcases List.getElem?_eq_some.mp hj with ⟨h1, _⟩
      exact h1
    have hrec := hrcontent j e hj
    have hslice :
        ((recs ++ List.replicate (12 * g.size - 12 * g.db.length) (0 : Nat)).drop
            (12 * j)).take 12 = (recs.drop (12 * j)).take 12 := by
      rw [List.drop_append_of_le_length (by omega)]
      rw [List.take_append_of_le_length (by simp [hrlen]; omega)]
    show ((recs ++ List.replicate (12 * g.size - 12 * g.db.length) (0 : Nat)).drop
        (12 * j)).take 12 = _
    rw [hslice]
    exact sumReadRecord_eq e _ hrec

/-- Witness for C6 (amended) on a one-UDINT group with a response of 4
status bytes followed by the 4 value bytes. -/
theorem c6_sum_read_amended_witness :
    (⟨leBytes 4 0 ++ leBytes 4 0 ++ leBytes 4 4, 1, 8,
      [{ dupDemoSym with value := some (.u 0x04030201) }]⟩ : SumReadEffect).indexOffset =
      (AdsGroupSymbolList.empty.insert dupDemoSym).size :=
  (c6_sum_read_amended (AdsGroupSymbolList.empty.insert dupDemoSym)
    [0, 0, 0, 0, 1, 2, 3, 4]
    ⟨leBytes 4 0 ++ leBytes 4 0 ++ leBytes 4 4, 1, 8,
      [{ dupDemoSym with value := some (.u 0x04030201) }]⟩ (by decide)).1

/-! ## Response wait (ads/adsclient.py, await_command_invoke) -/

/-- Client connection state relevant to the response wait: the socket
slot (`None` when closed, mirroring `is_connected`) and the shared
current-packet slot that the reader thread fills.  Packets are kept
abstract as raw AMS frame bytes. -/
structure ClientState where
  socketOpen : Bool
  currentPacket : Option (List Nat)
deriving DecidableEq, Repr

/-- `AdsClient.is_connected`: true exactly when the socket slot is set. -/
def is_connected (st : ClientState) : Bool := st.socketOpen

/-- The poll loop of `await_command_invoke`, single-threaded view: the
packet slot does not change while the caller spins, each iteration adds
0.001 to the timeout accumulator (tracked exactly, in milliseconds) and
sleeps one millisecond, and the loop raises the ADS timeout once the
accumulator exceeds 10.  On expiry the error carries the message text
and the number of milliseconds slept. -/
def awaitLoop (packet : Option (List Nat)) (tMillis : Nat) :
    Except (String × Nat) (List Nat) :=
  match packet with
  | some p => .ok p
  | none =>
    if h : (10 : ℚ) < (tMillis + 1 : ℚ) / 1000 then
      .error ("Timout: Did not receive ADS Answer!", tMillis + 1)
    else
      awaitLoop none (tMillis + 1)
termination_by 10001 - tMillis
decreasing_by
  have hle : ((tMillis + 1 : ℚ)) / 1000 ≤ 10 := le_of_not_lt h
  rw [div_le_iff₀ (by norm_num : (0 : ℚ) < 1000)] at hle
  have : (tMillis : ℚ) + 1 ≤ 10000 := by linarith
  have ht : tMillis + 1 ≤ 10000 := by exact_mod_cast this
  omega

/-- `AdsClient.await_command_invoke`: poll the current-packet slot; the
state (in particular the socket) is returned unchanged — the method
never calls `close`. -/
def await_command_invoke (st : ClientState) :
    (Except (String × Nat) (List Nat)) × ClientState :=
  (awaitLoop st.currentPacket 0, st)

theorem awaitLoop_none (t : Nat) (h : t ≤ 10000) :
    awaitLoop none t = .error ("Timout: Did not receive ADS Answer!", 10001) := by
  have hgen : ∀ k t, t ≤ 10000 → 10000 - t ≤ k →
      awaitLoop none t = .error ("Timout: Did not receive ADS Answer!", 10001) := by
    intro k
    induction k with
    | zero =>
      intro t ht hk
      have ht1 : t = 10000 := by omega
      subst ht1
      unfold awaitLoop
      rw [dif_pos (by norm_num)]
    | succ k ih =>
      intro t ht hk
      by_cases he : t = 10000
      · subst he
        unfold awaitLoop
        rw [dif_pos (by norm_num)]
      · unfold awaitLoop
        rw [dif_neg ?_]
        · exact ih (t + 1) (by omega) (by omega)
        · intro hcon
          rw [lt_div_iff₀ (by norm_num : (0 : ℚ) < 1000)] at hcon
          have : (10000 : ℚ) < (t : ℚ) + 1 := by linarith
          have : (10000 : Nat) < t + 1 := by exact_mod_cast this
          omega
  exact hgen (10000 - t) t h (le_refl _)

/-- C8: when no matching response arrives, `await_command_invoke` fails
with the ADS timeout error after 10001 one-millisecond sleeps (the
accumulator first exceeds 10 seconds at 10.001 s), and the timeout by
itself leaves the client state — in particular the socket and
`is_connected` — unchanged. -/
theorem c8_await_timeout_keeps_connection (st : ClientState)
    (h : st.currentPacket = none) :
    (await_command_invoke st).1 =
      .error ("Timout: Did not receive ADS Answer!", 10001) ∧
    (await_command_invoke st).2 = st ∧
    is_connected (await_command_invoke st).2 = is_connected st := by
  unfold await_command_invoke
  rw [h]
  exact ⟨awaitLoop_none 0 (by omega), rfl, rfl⟩

/-- Witness for C8 on a connected state with an empty packet slot. -/
theorem c8_await_timeout_keeps_connection_witness :
    (await_command_invoke ⟨true, none⟩).1 =
      .error ("Timout: Did not receive ADS Answer!", 10001) ∧
    (await_command_invoke ⟨true, none⟩).2 = ⟨true, none⟩ ∧
    is_connected (await_command_invoke ⟨true, none⟩).2 =
      is_connected ⟨true, none⟩ :=
  c8_await_timeout_keeps_connection ⟨true, none⟩ rfl

/-! ## TCP framing on read (ads/adsclient.py,
    read_ams_packet_from_socket) -/

/-- Result of one call of `read_ams_packet_from_socket` over a trace of
socket `recv` results.  `dropped` is the `return None` path of the
source (header shorter than 6 bytes or nonzero lead bytes); `blocked`
marks traces on which the source never returns (the payload loop waits
for data that never comes) or that no real `recv` can produce (a chunk
larger than requested).  The AMS decode of amspacket.py is not part of
src; modelled from the spec, the frame payload is kept as the raw bytes
after the 6-byte TCP header. -/
inductive ReadResult where
  | dropped
  | frame (payload : List Nat)
  | blocked
deriving DecidableEq, Repr

/-- `ADS_CHUNK_SIZE_DEFAULT` of ads/adsclient.py. -/
def ADS_CHUNK_SIZE_DEFAULT : Nat := 1024

/-- The accumulation loop of `read_ams_packet_from_socket`: while the
response is shorter than `dataLen`, request
`min(ADS_CHUNK_SIZE_DEFAULT, dataLen - len(response))` more bytes and
append whatever arrives.  A `recv` result must be nonempty and no
larger than requested; other traces are impossible or hang. -/
def amsReadLoop (chunks : List (List Nat)) (response : List Nat)
    (dataLen : Nat) : ReadResult :=
  if response.length < dataLen then
    match chunks with
    | [] => .blocked
    | c :: cs =>
      if c ≠ [] ∧ c.length ≤ min ADS_CHUNK_SIZE_DEFAULT (dataLen - response.length) then
        amsReadLoop cs (response ++ c) dataLen
      else .blocked
  else .frame (response.drop 6)

/-- `AdsClient.read_ams_packet_from_socket`: the first `recv` asks for
up to `ADS_CHUNK_SIZE_DEFAULT` bytes; if fewer than 6 arrive, or the
first two bytes are not zero, the bytes are discarded and None is
returned; otherwise the declared length is read from bytes 2..6 and the
loop accumulates until `dataLen = L + 6` bytes are present. -/
def read_ams_packet_from_socket (chunks : List (List Nat)) : ReadResult :=
  match chunks with
  | [] => .blocked
  | c :: cs =>
    if c.length ≤ ADS_CHUNK_SIZE_DEFAULT then
      if c.length < 6 then .dropped
      else if c.take 2 ≠ [0, 0] then .dropped
      else amsReadLoop cs c (leVal ((c.drop 2).take 4) + 6)
    else .blocked

/-- C3 as frozen is false: the reader does not read exactly 6 header
bytes and does not accumulate partial short reads of the header — a
live frame whose first `recv` yields only 3 bytes is discarded
(`return None`), while the same frame delivered in one piece parses. -/
theorem c3_framing_counterexample :
    read_ams_packet_from_socket [[0, 0, 0], [0, 0, 0]] = .dropped ∧
    read_ams_packet_from_socket [[0, 0, 0, 0, 0, 0]] = .frame [] := by
  decide

theorem amsReadLoop_accumulates (rest : List (List Nat)) :
    ∀ response dataLen,
      (∀ c ∈ rest, c ≠ [] ∧ c.length ≤ 1024) →
      response.length + rest.flatten.length = dataLen →
      amsReadLoop rest response dataLen = .frame ((response ++ rest.flatten).drop 6) := by
  induction rest with
  | nil =>
    intro response dataLen hrest htot
    unfold amsReadLoop
    rw [if_neg (by simp at htot; omega)]
    simp
  | cons c cs ih =>
    intro response dataLen hrest htot
    have hc := hrest c (List.mem_cons_self c cs)
    have hcpos : 0 < c.length := List.length_pos.mpr hc.1
    have hflat : (c :: cs).flatten.length = c.length + cs.flatten.length := by simp
    unfold amsReadLoop
    rw [if_pos (by omega)]
    simp only []
    rw [if_pos ?_]
    · have hrec := ih (response ++ c) dataLen
        (fun d hd => hrest d (List.mem_cons_of_mem c hd))
        (by simp; simp at htot; omega)
      rw [hrec]
      congr 1
      simp
    · refine ⟨hc.1, ?_⟩
      have h1024 := hc.2
      simp [ADS_CHUNK_SIZE_DEFAULT]
      omega

/-- C3 (amended): the reader issues one `recv` of up to 1024 bytes; when
that first read returns at least the 6 TCP-header bytes and the first
two bytes are zero, it decodes the declared length `L` from bytes 2..6
and accumulates further reads — short reads in the payload phase are
accumulated — until exactly `L + 6` bytes have arrived, returning the
bytes after the header as the AMS frame.  When the first read returns
fewer than 6 bytes, or the two lead bytes are nonzero, the bytes read
are discarded and None is returned (see the counterexample). -/
theorem c3_framing_amended (c0 : List Nat) (rest : List (List Nat))
    (h6 : 6 ≤ c0.length) (h1024 : c0.length ≤ 1024)
    (hz : c0.take 2 = [0, 0])
    (hrest : ∀ c ∈ rest, c ≠ [] ∧ c.length ≤ 1024)
    (htot : (c0 :: rest).flatten.length = leVal ((c0.drop 2).take 4) + 6) :
    read_ams_packet_from_socket (c0 :: rest) =
      .frame ((c0 :: rest).flatten.drop 6) := by
  unfold read_ams_packet_from_socket
  simp only []
  rw [if_pos (by simpa [ADS_CHUNK_SIZE_DEFAULT] using h1024)]
  rw [if_neg (by omega)]
  rw [if_neg (by simp [hz])]
  have hflat : (c0 :: rest).flatten = c0 ++ rest.flatten := by simp
  rw [amsReadLoop_accumulates rest c0 (leVal ((c0.drop 2).take 4) + 6) hrest
    (by rw [hflat, List.length_append] at htot; exact htot)]
  rw [hflat]

/-- Witness for C3 (amended): a declared length of 2 delivered as three
chunks — full header, then two single-byte short reads — yields the
two-byte frame. -/
theorem c3_framing_amended_witness :
    read_ams_packet_from_socket [[0, 0, 2, 0, 0, 0], [9], [7]] = .frame [9, 7] := by
  have h := c3_framing_amended [0, 0, 2, 0, 0, 0] [[9], [7]]
    (by decide) (by decide) (by decide) (by decide) (by decide)
  simpa using h

/-! ## Array descriptor regular expression
    (ads/adssymbol.py, AdsTypeInfo._reg_idx and from_data) -/

/-- ASCII lower-casing, as applied by re.IGNORECASE on the literals of
the pattern. -/
def charLower (c : Char) : Char :=
  if 'A' ≤ c ∧ c ≤ 'Z' then Char.ofNat (c.toNat + 32) else c

/-- Case-insensitive equality of character lists. -/
def eqCI (a b : List Char) : Prop := a.map charLower = b.map charLower

instance (a b : List Char) : Decidable (eqCI a b) := by
  unfold eqCI
  infer_instance

/-- Python re whitespace class over the ASCII range (space, tab,
newline, carriage return, vertical tab, form feed). -/
def wsCls (c : Char) : Bool :=
  c == ' ' || c == '\t' || c == '\n' || c == '\r' || c.toNat == 11 || c.toNat == 12

/-- Python re dot: any character except newline. -/
def dotCls (c : Char) : Bool := c != '\n'

/-- Python re word class over the ASCII range: letters, digits and the
underscore (type names on the wire are Windows-1252; word characters
beyond ASCII do not occur in the descriptors under study). -/
def wordCls (c : Char) : Bool := c.isAlphanum || c == '_'

/-- Element of the fixed pattern `ARRAY\s+\[([0-9]+).+([0-9]+)\].+OF\s(\w+)`:
a case-insensitive literal, a single class character, or a greedy
one-or-more repetition of a class, optionally capturing. -/
inductive RElem where
  | lit (cs : List Char)
  | one (cls : Char → Bool)
  | plus (cls : Char → Bool) (cap : Bool)

/-- Greedy repetition with backtracking, exactly as the CPython engine
treats `+`: try the longest run first (length `k` counts down from the
remaining input), succeed on the first continuation `f` that matches. -/
def plusTry (cls : Char → Bool) (cap : Bool)
    (f : List Char → Option (List (List Char))) (s : List Char) :
    Nat → Option (List (List Char))
  | 0 => none
  | k + 1 =>
    if (s.take (k + 1)).all cls then
      match f (s.drop (k + 1)) with
      | some caps => some (if cap then s.take (k + 1) :: caps else caps)
      | none => plusTry cls cap f s k
    else plusTry cls cap f s k

/-- One matching step against the leading pattern element, with `ih`
matching the remaining pattern. -/
def matchStep (elem : RElem) (ih : List Char → Option (List (List Char)))
    (s : List Char) : Option (List (List Char)) :=
  match elem with
  | .lit l =>
    if l.length ≤ s.length ∧ eqCI (s.take l.length) l then ih (s.drop l.length)
    else none
  | .one cls =>
    match s with
    | [] => none
    | c :: r => if cls c then ih r else none
  | .plus cls cap => plusTry cls cap ih s s.length

/-- Anchored match of a pattern at the start of the input, returning
the list of captures on success (backtracking, leftmost-longest per
element, as CPython does). -/
def matchFrom (ps : List RElem) : List Char → Option (List (List Char)) :=
  ps.rec (motive := fun _ => List Char → Option (List (List Char)))
    (fun _ => some [])
    (fun elem _ ih => matchStep elem ih)

theorem matchFrom_nil (s : List Char) : matchFrom [] s = some [] := rfl

theorem matchFrom_cons (elem : RElem) (ps : List RElem) (s : List Char) :
    matchFrom (elem :: ps) s = matchStep elem (matchFrom ps) s := rfl

/-- First match of the pattern over all start positions, leftmost
first: the first tuple `re.findall` would return. -/
def reSearch (ps : List RElem) : List Char → Option (List (List Char))
  | [] => matchFrom ps []
  | c :: t =>
    match matchFrom ps (c :: t) with
    | some caps => some caps
    | none => reSearch ps t

/-- `AdsTypeInfo._reg_idx` of ads/adssymbol.py: the compiled pattern
`ARRAY\s+\[([0-9]+).+([0-9]+)\].+OF\s(\w+)` with re.IGNORECASE.  Note
the source has `.+` between the two bound groups where the spec shows
the pattern with an escaped `\.\.`. -/
def reg_idx : List RElem :=
  [.lit ("ARRAY".toList), .plus wsCls false, .lit ("[".toList),
   .plus Char.isDigit true, .plus dotCls false, .plus Char.isDigit true,
   .lit ("]".toList), .plus dotCls false, .lit ("OF".toList),
   .one wsCls, .plus wordCls true]

/-- Value of `int()` on a captured digit string. -/
def strToNat (cs : List Char) : Nat :=
  cs.foldl (fun a c => 10 * a + (c.toNat - 48)) 0

/-- Outcome of the array-parsing block of `AdsTypeInfo.from_data`
(lines 167-185 of ads/adssymbol.py): the `isarray`, rewritten
`strtype`, `noelements` and `struct_is_child` attributes. -/
structure ArrayScan where
  isarray : Bool
  strtype : String
  noelements : Int
  struct_is_child : Bool
deriving DecidableEq, Repr

/-- The array-parsing block of `AdsTypeInfo.from_data`: run `_reg_idx`
over `path`; on a match set `strtype` to the third capture and
`noelements = int(ul) - int(ll) + 1`; otherwise run it over `strtype`
(the struct-member case, additionally setting `struct_is_child`);
otherwise mark the record as not an array with one element. -/
def from_data_array_scan (path strtype : String) : ArrayScan :=
  match reSearch reg_idx path.toList with
  | some (ll :: ul :: ty :: _) =>
    ⟨true, String.mk ty, (strToNat ul : Int) - (strToNat ll : Int) + 1, false⟩
  | _ =>
    match reSearch reg_idx strtype.toList with
    | some (ll :: ul :: ty :: _) =>
      ⟨true, String.mk ty, (strToNat ul : Int) - (strToNat ll : Int) + 1, true⟩
    | _ => ⟨false, strtype, 1, false⟩

/-- C1: on the record path `ARRAY [1..10] OF INT` the source pattern
(which reads `.+` where the intended IEC syntax has `..` between the
bounds) captures only the final digit `0` of the upper bound, so
`from_data` computes `num_elements = 0 - 1 + 1 = 0` instead of 10,
while still setting `is_array` and rewriting `strtype` to `INT`; with
single-digit bounds (here `ARRAY [1..5] OF INT`) the computation
matches the claim and yields 5. -/
theorem c1_array_regex_code_bug :
    from_data_array_scan "ARRAY [1..10] OF INT" "INT" =
      ⟨true, "INT", 0, false⟩ ∧
    reSearch reg_idx ("ARRAY [1..10] OF INT".toList) =
      some [['1'], ['0'], ['I', 'N', 'T']] ∧
    from_data_array_scan "ARRAY [1..5] OF INT" "INT" =
      ⟨true, "INT", 5, false⟩ := by
  decide

/-! ## String, TIME and DATE codecs (ads/adstypeconvert.py) -/

/-- Python exception kinds raised by the codec paths under study. -/
inductive PyError where
  | typeError (msg : String)
  | attributeError (msg : String)
  | structError (msg : String)
  | unicodeEncodeError (msg : String)
deriving DecidableEq, Repr

/-- Modelled from the spec: PYADS_ENCODING is Windows-1252 (the
constants module is not under src).  Windows-1252 encodes code points
below 0x80 and in 0xA0..0xFF (plus the five control points kept by the
codec) as themselves and maps 27 punctuation and letter code points
into 0x80..0x9F; other characters are not encodable. -/
def win1252EncodeChar (c : Char) : Option Nat :=
  if c.toNat < 0x80 then some c.toNat
  else if 0xA0 ≤ c.toNat ∧ c.toNat ≤ 0xFF then some c.toNat
  else if c.toNat = 0x81 ∨ c.toNat = 0x8D ∨ c.toNat = 0x8F ∨
      c.toNat = 0x90 ∨ c.toNat = 0x9D then some c.toNat
  else if c.toNat = 0x20AC then some 0x80
  else if c.toNat = 0x201A then some 0x82
  else if c.toNat = 0x0192 then some 0x83
  else if c.toNat = 0x201E then some 0x84
  else if c.toNat = 0x2026 then some 0x85
  else if c.toNat = 0x2020 then some 0x86
  else if c.toNat = 0x2021 then some 0x87
  else if c.toNat = 0x02C6 then some 0x88
  else if c.toNat = 0x2030 then some 0x89
  else if c.toNat = 0x0160 then some 0x8A
  else if c.toNat = 0x2039 then some 0x8B
  else if c.toNat = 0x0152 then some 0x8C
  else if c.toNat = 0x017D then some 0x8E
  else if c.toNat = 0x2018 then some 0x91
  else if c.toNat = 0x2019 then some 0x92
  else if c.toNat = 0x201C then some 0x93
  else if c.toNat = 0x201D then some 0x94
  else if c.toNat = 0x2022 then some 0x95
  else if c.toNat = 0x2013 then some 0x96
  else if c.toNat = 0x2014 then some 0x97
  else if c.toNat = 0x02DC then some 0x98
  else if c.toNat = 0x2122 then some 0x99
  else if c.toNat = 0x0161 then some 0x9A
  else if c.toNat = 0x203A then some 0x9B
  else if c.toNat = 0x0153 then some 0x9C
  else if c.toNat = 0x017E then some 0x9E
  else if c.toNat = 0x0178 then some 0x9F
  else none

/-- `value.encode(PYADS_ENCODING)` on a host string. -/
def win1252Encode (s : String) : Except PyError (List Nat) :=
  match s.toList.mapM win1252EncodeChar with
  | some bs => .ok bs
  | none => .error (.unicodeEncodeError "character maps to undefined")

/-- `AdsStringDatatype.pack`: encode under Windows-1252, then
`struct.pack` with format `%ss`, which truncates to `str_length` bytes
or pads with NUL bytes up to `str_length`. -/
def ads_string_pack (strLength : Nat) (value : String) : Except PyError (List Nat) :=
  match win1252Encode value with
  | .error e => .error e
  | .ok bs => .ok (bs.take strLength ++ List.replicate (strLength - bs.length) 0)

/-- `AdsStringDatatype.byte_str_to_decoded_str` of ads/adstypeconvert.py:
the source calls `byte_str.split` with the one-character str NUL as
separator, but `byte_str` is a bytes object and Python 3 `bytes.split`
rejects a str separator, so the call raises TypeError before any NUL
scan or Windows-1252 decode happens. -/
def byte_str_to_decoded_str (byteStr : List Nat) : Except PyError String :=
  .error (.typeError "a bytes-like object is required, not str")

/-- `AdsStringDatatype.unpack`: `struct.unpack` with format `%ss`
(which demands a buffer of exactly the declared length), then
`byte_str_to_decoded_str`. -/
def ads_string_unpack (strLength : Nat) (value : List Nat) : Except PyError String :=
  if value.length = strLength then byte_str_to_decoded_str value
  else .error (.structError "unpack requires a buffer of the declared length")

/-- C2: the STRING codec does not round-trip — `pack` truncates or
NUL-pads to the declared capacity as claimed, but `unpack` raises
TypeError on every input (bytes.split is handed a str separator, a
Python 3 incompatibility contradicting the docstring that promises a
NUL-terminated Windows-1252 decode), shown here at the packed
one-character string `A` under the default capacity 80 and at a
truncating pack of capacity 4. -/
theorem c2_string_roundtrip_code_bug :
    ads_string_pack 80 "A" = .ok (65 :: List.replicate 79 0) ∧
    ads_string_unpack 80 (65 :: List.replicate 79 0) =
      .error (.typeError "a bytes-like object is required, not str") ∧
    ads_string_pack 4 "ABCDEFG" = .ok [65, 66, 67, 68] :=
  ⟨rfl, rfl, rfl⟩

/-- Host value of a `datetime.time`: hour, minute, second and
microsecond components. -/
structure PyTimeOfDay where
  hour : Nat
  minute : Nat
  second : Nat
  microsecond : Nat
deriving DecidableEq, Repr

/-- `AdsTimeDatatype.time_to_milliseconds_integer` of
ads/adstypeconvert.py: the source reads `value.hours`,
`value.minutes`, `value.seconds` and `value.microseconds`, but
`datetime.time` exposes the singular attributes `hour`, `minute`,
`second`, `microsecond`, so the very first attribute access raises
AttributeError for every input. -/
def time_to_milliseconds_integer (v : PyTimeOfDay) : Except PyError Nat :=
  .error (.attributeError "datetime.time object has no attribute hours")

/-- `AdsTimeDatatype.pack`: convert to milliseconds, then
`struct.pack` of an unsigned 32-bit little-endian value. -/
def ads_time_pack (v : PyTimeOfDay) : Except PyError (List Nat) :=
  match time_to_milliseconds_integer v with
  | .error e => .error e
  | .ok ms => .ok (leBytes 4 (ms % 2 ^ 32))

/-- `AdsDateDatatype.days_integer_to_time` of ads/adstypeconvert.py:
the source evaluates `datetime.date(days=value)`, but the date
constructor has no `days` keyword (it requires year, month and day),
so the call raises TypeError for every input — the inconsistency the
spec itself notes. -/
def days_integer_to_time (v : Nat) : Except PyError Int :=
  .error (.typeError "function missing required argument year (pos 1)")

/-- `AdsDateDatatype.unpack` of ads/adstypeconvert.py: the method calls
`super(AdsTimeDatatype, self).unpack`, but `AdsDateDatatype` derives
from `AdsSingleValuedTypeConvert`, not from `AdsTimeDatatype`, so
`super` raises TypeError before any byte is decoded. -/
def ads_date_unpack (value : List Nat) : Except PyError Int :=
  .error (.typeError "super requires obj to be an instance or subtype of type")

/-- C7: neither codec round-trips on the source as written — TIME.pack
raises AttributeError for every time value (nonexistent plural
attributes), and DATE decoding raises TypeError for every input (a
mismatched super call in unpack, and the nonexistent day-count
constructor `datetime.date(days=...)` behind it), evaluated here at
midnight and at epoch day 0. -/
theorem c7_time_date_codecs_code_bug :
    ads_time_pack ⟨0, 0, 0, 0⟩ =
      .error (.attributeError "datetime.time object has no attribute hours") ∧
    ads_date_unpack (leBytes 4 0) =
      .error (.typeError "super requires obj to be an instance or subtype of type") ∧
    days_integer_to_time 0 =
      .error (.typeError "function missing required argument year (pos 1)") :=
  ⟨rfl, rfl, rfl⟩

end TC2ADS
